import Mathlib

/-!
Verification of the nbrowser virtual path tree (`paths.py`, `archive_paths.py`).

The development shallowly embeds the Python source:
* POSIX path string functions (`os.path.join`, `dirname`, `basename`, `normpath`,
  `abspath`, `relpath`, `pathlib.PurePosixPath.as_posix`, the extension part of
  `os.path.splitext`) are translated from CPython's `posixpath` module, which is
  the behaviour the source relies on.
* `Path` / `DirPath` objects (`paths.py`) are modelled as records in an
  explicit object heap (ids standing for Python object references), with
  mutation modelled as functional record update.
* The `ArchivePath` anchor chain, `Py7zrArchivePath.filter_children` /
  `find_children` / `get_archive_file` / `v_open` (`archive_paths.py`) are
  modelled as pure functions over the relevant state, with the py7zr
  collaborator supplied as a function parameter.
-/

namespace NBrowser

/-! ## POSIX path functions (CPython `posixpath` semantics)

Implemented over `List Char` (via `String.toList` / `String.mk`) so that
every function evaluates by kernel reduction. -/

/-- `pre` is a prefix of `l` (Python `str.startswith` over char lists). -/
def charsPrefix : List Char → List Char → Bool
  | [], _ => true
  | _ :: _, [] => false
  | a :: as, b :: bs => a = b ∧ charsPrefix as bs = true

/-- Python `s.startswith(pre)`. -/
def strStartsWith (s pre : String) : Bool := charsPrefix pre.toList s.toList

/-- Python `s.endswith(suf)`. -/
def strEndsWith (s suf : String) : Bool :=
  charsPrefix suf.toList.reverse s.toList.reverse

/-- Split a char list on `/` (Python `s.split('/')`). -/
def splitSlash (l : List Char) : List (List Char) :=
  l.foldr
    (fun c acc =>
      if c = '/' then [] :: acc
      else match acc with
        | [] => [[c]]
        | h :: t => (c :: h) :: t)
    [[]]

/-- Python `s.split('/')` as strings. -/
def strSplitSlash (s : String) : List String := (splitSlash s.toList).map String.mk

/-- `os.path.join(a, b)` on POSIX, for two arguments: if `b` is absolute it
replaces `a`; otherwise it is appended with a separator unless `a` is empty or
already ends in one. -/
def pjoin (a b : String) : String :=
  if strStartsWith b "/" then b
  else if a = "" ∨ strEndsWith a "/" then a ++ b
  else a ++ "/" ++ b

/-- `os.path.basename(p)`: everything after the last slash. -/
def basename (p : String) : String :=
  String.mk ((p.toList.reverse.takeWhile (fun c => c ≠ '/')).reverse)

/-- `os.path.dirname(p)`: everything up to (and normally excluding) the last
slash; trailing slashes are stripped unless the result consists only of
slashes. -/
def dirname (p : String) : String :=
  let head := (p.toList.reverse.dropWhile (fun c => c ≠ '/')).reverse
  let head :=
    if head ≠ [] ∧ head.any (fun c => c ≠ '/')
    then (head.reverse.dropWhile (fun c => c = '/')).reverse
    else head
  String.mk head

/-- `os.path.normpath(p)` on POSIX: collapse repeated separators, drop `.`
components, resolve `..` where possible, keeping the CPython special case of
exactly two leading slashes. -/
def normpath (p : String) : String :=
  if p = "" then "."
  else
    let initialSlashes : Nat :=
      if strStartsWith p "/" then
        if strStartsWith p "//" ∧ ¬ strStartsWith p "///" then 2 else 1
      else 0
    let newComps := (strSplitSlash p).foldl
      (fun acc comp =>
        if comp = "" ∨ comp = "." then acc
        else if comp ≠ ".." ∨ (initialSlashes = 0 ∧ acc = []) ∨
            (acc ≠ [] ∧ acc.getLast? = some "..") then
          acc ++ [comp]
        else if acc ≠ [] then acc.dropLast
        else acc) []
    let res := String.mk (List.replicate initialSlashes '/') ++
      String.intercalate "/" newComps
    if res = "" then "." else res

/-- `os.path.abspath(p)` on POSIX, with the process working directory `cwd`
made explicit: join onto `cwd` when relative, then normalise. -/
def abspath (cwd p : String) : String :=
  normpath (if strStartsWith p "/" then p else pjoin cwd p)

/-- Length of the common prefix of two lists (CPython's
`os.path.commonprefix` applied to component lists inside `relpath`). -/
def commonPrefixLen : List String → List String → Nat
  | a :: as, b :: bs => if a = b then commonPrefixLen as bs + 1 else 0
  | _, _ => 0

/-- `os.path.relpath(p, start)` on POSIX with explicit working directory:
both arguments are made absolute, split into non-empty components, and the
result climbs out of the uncommon part of `start`. -/
def relpath (cwd p start : String) : String :=
  let pa := (strSplitSlash (abspath cwd p)).filter (fun c => c ≠ "")
  let sa := (strSplitSlash (abspath cwd start)).filter (fun c => c ≠ "")
  let i := commonPrefixLen sa pa
  let rel := List.replicate (sa.length - i) ".." ++ pa.drop i
  if rel = [] then "." else String.intercalate "/" rel

/-- `pathlib.PurePosixPath(p).as_posix()`: parse into components, dropping
empty and `.` parts (but keeping `..`), remembering whether the path was
absolute. -/
def asPosix (p : String) : String :=
  let isAbs := strStartsWith p "/"
  let comps := (strSplitSlash p).filter (fun c => c ≠ "" ∧ c ≠ ".")
  if comps = [] then (if isAbs then "/" else ".")
  else (if isAbs then "/" else "") ++ String.intercalate "/" comps

/-- The extension part of `os.path.splitext(p)`: the suffix starting at the
last dot of the final component, provided some earlier character of that
component is not a dot (so `.bashrc` has no extension). -/
def splitextExt (p : String) : String :=
  let base := (basename p).toList
  let afterDot := base.reverse.takeWhile (fun c => c ≠ '.')
  if afterDot.length = base.length then ""
  else
    let d := base.length - afterDot.length - 1
    if (base.take d).any (fun c => c ≠ '.') then String.mk (base.drop d) else ""

/-! ## Python-dict association lists

Python dicts keep insertion order; assignment overwrites in place. We model a
dict as an association list whose insert overwrites an existing key in place
and otherwise appends. -/

/-- Dict key-membership test (Python `in`). -/
def hasKey {α : Type} (l : List (String × α)) (k : String) : Bool :=
  l.any (fun p => p.1 = k)

/-- Dict lookup (Python `d[k]`, `none` standing for `KeyError`). -/
def lookupKey {α : Type} (l : List (String × α)) (k : String) : Option α :=
  (l.find? (fun p => p.1 = k)).map (fun p => p.2)

/-- Dict assignment `d[k] = v`: overwrite in place or append. -/
def dictInsert {α : Type} (l : List (String × α)) (k : String) (v : α) :
    List (String × α) :=
  if hasKey l k then l.map (fun p => if p.1 = k then (k, v) else p)
  else l ++ [(k, v)]

/-! ## Object-heap model of `paths.py`

Python objects are mutable and aliased, so `Path` / `DirPath` instances are
modelled as records addressed by numeric ids in a heap; `parent` and the
values of `children` are ids. A record collapses `Path`, `DirPath` and the
file classes, with `isDir` selecting which `get_path` override applies.
`path` is the `self.path` cache (`none` = Python `None`). -/

structure PathObj where
  name : String
  parent : Option Nat
  backend : String
  path_type : String
  path : Option String
  children : List (String × Nat)
  isDir : Bool
deriving DecidableEq, Repr

/-- The object heap: object ids mapped to their current record. -/
def Heap : Type := List (Nat × PathObj)

/-- Dereference an object id. -/
def heapGet (h : Heap) (i : Nat) : Option PathObj :=
  (List.find? (fun p => p.1 = i) h).map (fun p => p.2)

/-- `Path.get_path` / `DirPath.get_path`, with explicit working directory and
recursion fuel (the Python recursion climbs parent links, which the heap
cannot show to be well-founded). The result pairs the returned string with a
flag recording whether an `UnexpectedSituationWarning` was issued anywhere in
the resolution; `none` means the recursion did not terminate within `fuel` or
hit a dangling id. -/
def get_path (cwd : String) (h : Heap) : Nat → PathObj → Option (String × Bool)
  | 0, _ => none
  | fuel + 1, o =>
    if o.isDir then
      -- DirPath.get_path
      match o.path with
      | some p => some (p, false)
      | none =>
        if o.parent = none ∧ o.children = [] then
          -- "This is the start node"
          some (abspath cwd o.name, false)
        else if o.parent ≠ none then
          -- "Generate path from parent's path"
          match o.parent with
          | some pid =>
            match heapGet h pid with
            | some po =>
              match get_path cwd h fuel po with
              | some (pp, w) => some (pjoin pp o.name, w)
              | none => none
            | none => none
          | none => none
        else
          -- "Generate path from first child Path"
          match o.children with
          | (_, cid) :: _ =>
            match heapGet h cid with
            | some co =>
              match get_path cwd h fuel co with
              | some (cp, w) => some (dirname cp, w)
              | none => none
            | none => none
          | [] => none
    else
      -- Path.get_path
      match o.path with
      | some p => some (p, false)
      | none =>
        match o.parent with
        | none =>
          if o.backend = "fs" then some (abspath cwd o.name, false)
          else
            -- UnexpectedSituationWarning, then `return self.name`
            some (o.name, true)
        | some pid =>
          match heapGet h pid with
          | some po =>
            match get_path cwd h fuel po with
            | some (pp, w) => some (pjoin pp o.name, w)
            | none => none
          | none => none

/-- `Path.set_name`. -/
def set_name (o : PathObj) (n : String) : PathObj := { o with name := n }

/-- `Path.set_parent` (the argument is the new parent object). -/
def set_parent (o : PathObj) (pid : Nat) : PathObj := { o with parent := some pid }

/-- `Path.absorb` / `DirPath.absorb`: copy identity fields from `other`.
Note the source assigns `self.backend = other.get_path()` (not
`other.get_backend()`); the model reproduces that line faithfully.
`DirPath.absorb` additionally copies the children mapping. -/
def absorb (cwd : String) (h : Heap) (fuel : Nat) (self other : PathObj) :
    Option PathObj :=
  match get_path cwd h fuel other with
  | none => none
  | some (gp, _) =>
    some { self with
      name := other.name
      parent := other.parent
      backend := gp
      path_type := other.path_type
      children := if self.isDir then other.children else self.children }

/-- `DirPath.__getitem__`: `.` yields the object itself (its id), `..` yields
the parent reference (possibly Python `None`), anything else looks up
`children`. The outer `none` is a `KeyError`. -/
def dirGetItem (o : PathObj) (selfId : Nat) (key : String) : Option (Option Nat) :=
  if key = "." then some (some selfId)
  else if key = ".." then some o.parent
  else (lookupKey o.children key).map some

/-- `DirPath.__setitem__`: `.` absorbs the value object, `..` rebinds the
parent, anything else assigns into `children`. -/
def dirSetItem (cwd : String) (h : Heap) (fuel : Nat) (o : PathObj)
    (key : String) (valId : Nat) : Option PathObj :=
  if key = "." then
    match heapGet h valId with
    | some v => absorb cwd h fuel o v
    | none => none
  else if key = ".." then some (set_parent o valId)
  else some { o with children := dictInsert o.children key valId }

/-- `DirPath.__iter__` (keys of `children` only). -/
def dirIter (o : PathObj) : List String := o.children.map (fun p => p.1)

/-- `DirPath.__len__`. -/
def dirLen (o : PathObj) : Nat := o.children.length

/-- `DirPath.__contains__` (checks `children` only). -/
def dirContains (o : PathObj) (k : String) : Bool := hasKey o.children k

/-- `Path.__init__` (with `DirPath.__init__`'s extras when `isDir`): take the
basename of `name`, pre-seed `self.path` with `abspath(name)` when a full
path was passed, then cache `self.path = self.get_path()`; finally,
`DirPath.__init__` renames a `..` node that was given children. `children`
is the already-normalised children dict (`DirPath.__init__` accepts a list,
dict or single `Path` and converts to a dict before this point); `none` when
`self.get_path()` fails to resolve in the model. -/
def mkPathObj (cwd : String) (h : Heap) (fuel : Nat) (name : String)
    (parent : Option Nat) (backend ptype : String) (isDir : Bool)
    (children : List (String × Nat)) : Option PathObj :=
  let bn := basename name
  let path0 : Option String := if bn = name then none else some (abspath cwd name)
  let o0 : PathObj :=
    { name := bn, parent := parent, backend := backend, path_type := ptype,
      path := path0, children := children, isDir := isDir }
  match get_path cwd h fuel o0 with
  | none => none
  | some (p, _) =>
    let o1 := { o0 with path := some p }
    some (if isDir ∧ bn = ".." ∧ children ≠ [] then { o1 with name := basename p } else o1)

/-- A sequence of `__setitem__` operations applied to one directory object. -/
def applySets (cwd : String) (h : Heap) (fuel : Nat) (d : PathObj)
    (ops : List (String × Nat)) : Option PathObj :=
  ops.foldl (fun od op => od.bind (fun o => dirSetItem cwd h fuel o op.1 op.2))
    (some d)

/-- The C9 invariant on a children dict: no reserved key is stored. -/
def cleanChildren (c : List (String × Nat)) : Bool :=
  c.all (fun p => p.1 ≠ "." ∧ p.1 ≠ "..")

/-- Every object in the heap satisfies the children invariant. -/
def cleanHeap (h : Heap) : Bool :=
  h.all (fun p => cleanChildren p.2.children)

/-! ## `ArchivePath` anchor chain (`archive_paths.py`)

`get_anchor` only walks `parent` links upward through `ArchivePath` objects,
never into children, so the ancestor chain is modelled directly as an
inductive value. The `path` field stands for the node's `get_path()` result,
which `Path.__init__` caches as a concrete string before `ArchivePath.__init__`
touches the anchor (see `mkPathObj` / theorem on C10). A `root` node is one
whose parent is not an `ArchivePath` (delegating past it would fail in
Python, modelled as `none`). -/

inductive ArchivePath : Type where
  | root (path : String) (is_anchor : Bool) (anchor : Option String)
  | node (path : String) (is_anchor : Bool) (anchor : Option String)
      (parent : ArchivePath)
deriving DecidableEq, Repr

namespace ArchivePath

/-- The cached `get_path()` string of the node. -/
def path : ArchivePath → String
  | root p _ _ => p
  | node p _ _ _ => p

/-- `ArchivePath.get_is_anchor`. -/
def get_is_anchor : ArchivePath → Bool
  | root _ ia _ => ia
  | node _ ia _ _ => ia

/-- The memoised `self.anchor` field. -/
def anchorField : ArchivePath → Option String
  | root _ _ a => a
  | node _ _ a _ => a

/-- `ArchivePath.get_anchor`: the memoised anchor if set; else own path when
this node is an anchor; else delegate to the parent (`none` when delegation
runs off the `ArchivePath` chain, which in Python is an `AttributeError`). -/
def get_anchor : ArchivePath → Option String
  | root p ia a =>
    match a with
    | some x => some x
    | none => if ia then some p else none
  | node p ia a par =>
    match a with
    | some x => some x
    | none => if ia then some p else par.get_anchor

/-- `ArchivePath.__init__` for a node whose parent is not an `ArchivePath`:
`self.anchor = self.get_path() if self.is_anchor else None` followed by
`self.anchor = self.get_anchor()`. -/
def mkRoot (p : String) (ia : Bool) : ArchivePath :=
  let a0 : Option String := if ia then some p else none
  root p ia (get_anchor (root p ia a0))

/-- `ArchivePath.__init__` for a node whose parent is an already-constructed
`ArchivePath`. -/
def mkNode (p : String) (ia : Bool) (par : ArchivePath) : ArchivePath :=
  let a0 : Option String := if ia then some p else none
  node p ia (get_anchor (node p ia a0 par)) par

/-- Chains actually produced by the constructor. -/
inductive Constructed : ArchivePath → Prop where
  | base : ∀ p ia, Constructed (mkRoot p ia)
  | step : ∀ p ia par, Constructed par → Constructed (mkNode p ia par)

/-- The nearest node of the chain (starting at the node itself) whose
`is_anchor` flag is set. -/
def nearestAnchorNode : ArchivePath → Option ArchivePath
  | root p ia a => if ia then some (root p ia a) else none
  | node p ia a par => if ia then some (node p ia a par) else nearestAnchorNode par

/-- The nearest strict-ancestor anchor of a node. -/
def nearestAnchorAncestor : ArchivePath → Option ArchivePath
  | root _ _ _ => none
  | node _ _ _ par => nearestAnchorNode par

end ArchivePath

/-! ## `Py7zrArchivePath.filter_children` / `find_children`

An archive entry is a filename plus py7zr's `folder` field, which is `None`
exactly for directory entries (modelled as an `Option Nat` coder id). The
children the `Terminal.add_path` callback registers are modelled by what kind
of node it creates: a non-anchor `Py7zrArchivePath` for a directory entry, a
file node otherwise. -/

structure Entry where
  filename : String
  folder : Option Nat
deriving DecidableEq, Repr

inductive ChildKind : Type where
  | dirChild
  | fileChild
deriving DecidableEq, Repr

/-- The `if` condition of `Py7zrArchivePath.filter_children`: the entry's
internal parent directory (anchor joined with the entry name, dirname,
normalised) equals this node's normalised path, and its basename is not
already a child. -/
def keepEntry (node_path anchor : String) (children : List (String × ChildKind))
    (e : Entry) : Bool :=
  normpath node_path = normpath (dirname (pjoin anchor e.filename)) ∧
    ¬ hasKey children (basename e.filename) = true

/-- `Py7zrArchivePath.filter_children`: keep the entries satisfying
`keepEntry`; the result is the `to_return` dict keyed by basename. -/
def filter_children (node_path anchor : String)
    (children : List (String × ChildKind)) (files : List Entry) :
    List (String × Entry) :=
  files.foldl
    (fun acc e =>
      if keepEntry node_path anchor children e then
        dictInsert acc (basename e.filename) e
      else acc) []

/-- `Py7zrArchivePath.find_children`: when the archive handle resolved
(`files? = some files`, the header's file list), register each filtered entry
as a directory child (`folder is None`) or a file child; when the handle
could not be resolved the children are left untouched. `childKindOf` is the
`folder is None` branch choosing what `add_path` creates. -/
def childKindOf (e : Entry) : ChildKind :=
  match e.folder with
  | none => ChildKind.dirChild
  | some _ => ChildKind.fileChild

/-- `Py7zrArchivePath.find_children` proper: insert each filtered entry into
the children dict under its basename. -/
def find_children (node_path anchor : String) (files? : Option (List Entry))
    (children : List (String × ChildKind)) : List (String × ChildKind) :=
  match files? with
  | none => children
  | some files =>
    (filter_children node_path anchor children files).foldl
      (fun c ne => dictInsert c ne.1 (childKindOf ne.2)) children

/-! ## `Py7zrArchivePath.get_archive_file` (container-handle opening)

The py7zr collaborator is a function from an optional password to an open
outcome: success with a handle, `PasswordRequired`, an `lzma.LZMAError`
(wrong password), or a `py7zr.exceptions.ArchiveError` with a message. The
model covers the anchor node's fresh open (the memoised and delegating
branches just return an existing handle). Effects recorded: the returned
handle (`none` = the implicit `return None` after failures), how many times
the interactive password prompt ran, and the error messages reported to the
context. A model result of `none` is an uncaught exception. -/

inductive OpenRes : Type where
  | ok (handle : Nat)
  | passwordRequired
  | lzmaError
  | archiveError (msg : String)
deriving DecidableEq, Repr

structure ArcOutcome where
  handle : Option Nat
  prompts : Nat
  errors : List String
deriving DecidableEq, Repr

/-- The `for i in range(3)` password retry loop: `done` prompts already made,
`rem` iterations left; each iteration prompts, retries the open, and on
`LZMAError` reports `Incorrect password.`; an `ArchiveError` escapes to the
outer handler which reports a decompression error; falling off the loop ends
the function with an implicit `None`. -/
def passwordLoop (openArc : Option String → OpenRes) (passwords : Nat → String) :
    Nat → Nat → List String → Option ArcOutcome
  | done, 0, errs => some ⟨none, done, errs⟩
  | done, rem + 1, errs =>
    match openArc (some (passwords done)) with
    | OpenRes.ok h => some ⟨some h, done + 1, errs⟩
    | OpenRes.lzmaError =>
      passwordLoop openArc passwords (done + 1) rem (errs ++ ["Incorrect password."])
    | OpenRes.archiveError m =>
      some ⟨none, done + 1, errs ++ ["Decompression error: " ++ m]⟩
    | OpenRes.passwordRequired => none

/-- `Py7zrArchivePath.get_archive_file`, anchor case: open without a
password; on `PasswordRequired` enter the 3-attempt prompt loop; on
`ArchiveError` report a decompression error and fall through to `None`. An
initial `LZMAError` is caught by neither handler. -/
def get_archive_file (openArc : Option String → OpenRes)
    (passwords : Nat → String) : Option ArcOutcome :=
  match openArc none with
  | OpenRes.ok h => some ⟨some h, 0, []⟩
  | OpenRes.passwordRequired => passwordLoop openArc passwords 0 3 []
  | OpenRes.archiveError m => some ⟨none, 0, ["Decompression error: " ++ m]⟩
  | OpenRes.lzmaError => none

/-! ## `Py7zrArchivePath.v_open`

`child_data` caches raw bytes per requested name. The archive handle's
`read`/`reset` pair is the collaborator `readEntry : String → List Nat`,
fed the entry's path relative to the anchor (`pathlib.Path(...).as_posix()`
applied to `os.path.relpath`). Outcomes record what the caller receives: a
temp file whose written content and suffix are given, or an in-memory
stream over the bytes (the `text` branch returns the bytes that
`str(..., encoding='utf-8')` would decode). -/

inductive VOut : Type where
  | tempPath (content : List Nat) (suffix : String)
  | textStream (data : List Nat)
  | byteStream (data : List Nat)
deriving DecidableEq, Repr

/-- The bytes the caller can read back from a `v_open` result. -/
def VOut.content : VOut → List Nat
  | tempPath c _ => c
  | textStream d => d
  | byteStream d => d

/-- `Py7zrArchivePath.v_open`: fill the `child_data` cache on a miss by
reading the entry at the anchor-relative internal path, then serve the cached
bytes as a temp file (`temp`), a text stream (`text`), or a byte stream. -/
def v_open (readEntry : String → List Nat) (cwd node_path anchor : String)
    (child_data : List (String × List Nat)) (path : String)
    (temp text : Bool) : VOut × List (String × List Nat) :=
  let cache :=
    if hasKey child_data path then child_data
    else
      let extract_path := asPosix (relpath cwd (pjoin node_path path) anchor)
      dictInsert child_data path (readEntry extract_path)
  let data := (lookupKey cache path).getD []
  if temp then (VOut.tempPath data (splitextExt path), cache)
  else if text then (VOut.textStream data, cache)
  else (VOut.byteStream data, cache)

/-! ## Helper lemmas on the dict model -/

theorem hasKey_cons {α : Type} (p : String × α) (l : List (String × α))
    (k : String) : hasKey (p :: l) k = true ↔ p.1 = k ∨ hasKey l k = true := by
  simp [hasKey]

theorem hasKey_dictInsert {α : Type} (l : List (String × α)) (k : String)
    (v : α) (k' : String) :
    hasKey (dictInsert l k v) k' = true ↔ k' = k ∨ hasKey l k' = true := by
  unfold dictInsert
  by_cases h : hasKey l k = true
  · rw [if_pos h]
    simp only [hasKey, List.any_map, List.any_eq_true, Function.comp,
      decide_eq_true_eq] at h ⊢
    constructor
    · rintro ⟨x, hx, hkey⟩
      by_cases hxk : x.1 = k
      · rw [if_pos hxk] at hkey
        exact Or.inl hkey.symm
      · rw [if_neg hxk] at hkey
        exact Or.inr ⟨x, hx, hkey⟩
    · rintro (rfl | ⟨x, hx, hkey⟩)
      · obtain ⟨x, hx, hxk⟩ := h
        exact ⟨x, hx, by rw [if_pos hxk]⟩
      · by_cases hxk : x.1 = k
        · exact ⟨x, hx, by rw [if_pos hxk]; exact (hxk ▸ hkey).symm ▸ rfl⟩
        · exact ⟨x, hx, by rw [if_neg hxk]; exact hkey⟩
  · rw [if_neg h]
    simp only [hasKey, List.any_append, List.any_cons, List.any_nil,
      Bool.or_eq_true, List.any_eq_true, decide_eq_true_eq, Bool.or_false]
    constructor
    · rintro (h1 | h2)
      · exact Or.inr (by simpa [hasKey, List.any_eq_true] using h1)
      · exact Or.inl h2.symm
    · rintro (rfl | h2)
      · exact Or.inr rfl
      · exact Or.inl (by simpa [hasKey, List.any_eq_true] using h2)

theorem hasKey_foldl_dictInsert {α β : Type} (g : String × β → α) :
    ∀ (ci : List (String × β)) (c : List (String × α)) (k : String),
      hasKey (ci.foldl (fun c ne => dictInsert c ne.1 (g ne)) c) k = true ↔
        hasKey c k = true ∨ hasKey ci k = true
  | [], c, k => by simp [hasKey]
  | ne :: ci, c, k => by
    rw [List.foldl_cons, hasKey_foldl_dictInsert g ci, hasKey_dictInsert,
      hasKey_cons]
    tauto

theorem hasKey_filter_foldl (cond : Entry → Bool) :
    ∀ (files : List Entry) (acc : List (String × Entry)) (k : String),
      hasKey (files.foldl
        (fun acc e => if cond e then dictInsert acc (basename e.filename) e
          else acc) acc) k = true ↔
        hasKey acc k = true ∨
          ∃ e ∈ files, cond e = true ∧ basename e.filename = k
  | [], acc, k => by simp
  | e :: files, acc, k => by
    rw [List.foldl_cons]
    by_cases hc : cond e = true
    · rw [if_pos hc, hasKey_filter_foldl cond files, hasKey_dictInsert]
      constructor
      · rintro ((rfl | h) | ⟨e', he', hce', hbe'⟩)
        · exact Or.inr ⟨e, List.mem_cons_self e files, hc, rfl⟩
        · exact Or.inl h
        · exact Or.inr ⟨e', List.mem_cons_of_mem e he', hce', hbe'⟩
      · rintro (h | ⟨e', he', hce', hbe'⟩)
        · exact Or.inl (Or.inr h)
        · rcases List.mem_cons.mp he' with rfl | he''
          · exact Or.inl (Or.inl hbe'.symm)
          · exact Or.inr ⟨e', he'', hce', hbe'⟩
    · rw [if_neg hc, hasKey_filter_foldl cond files]
      constructor
      · rintro (h | ⟨e', he', hce', hbe'⟩)
        · exact Or.inl h
        · exact Or.inr ⟨e', List.mem_cons_of_mem e he', hce', hbe'⟩
      · rintro (h | ⟨e', he', hce', hbe'⟩)
        · exact Or.inl h
        · rcases List.mem_cons.mp he' with rfl | he''
          · exact absurd hce' hc
          · exact Or.inr ⟨e', he'', hce', hbe'⟩

theorem filter_foldl_of_all_false (cond : Entry → Bool) :
    ∀ (files : List Entry) (acc : List (String × Entry)),
      (∀ e ∈ files, cond e = false) →
      files.foldl
        (fun acc e => if cond e then dictInsert acc (basename e.filename) e
          else acc) acc = acc
  | [], acc, _ => rfl
  | e :: files, acc, hall => by
    rw [List.foldl_cons, if_neg]
    · exact filter_foldl_of_all_false cond files acc
        (fun e' he' => hall e' (List.mem_cons_of_mem e he'))
    · simp [hall e (List.mem_cons_self e files)]

theorem hasKey_filter_children (np a : String) (c : List (String × ChildKind))
    (files : List Entry) (k : String) :
    hasKey (filter_children np a c files) k = true ↔
      ∃ e ∈ files, keepEntry np a c e = true ∧ basename e.filename = k := by
  unfold filter_children
  rw [hasKey_filter_foldl (keepEntry np a c) files [] k]
  simp [hasKey]

theorem hasKey_find_children (np a : String) (files : List Entry)
    (c : List (String × ChildKind)) (k : String) :
    hasKey (find_children np a (some files) c) k = true ↔
      hasKey c k = true ∨ hasKey (filter_children np a c files) k = true := by
  unfold find_children
  exact hasKey_foldl_dictInsert (fun ne => childKindOf ne.2)
    (filter_children np a c files) c k

theorem filter_children_eq_nil (np a : String) (c : List (String × ChildKind))
    (files : List Entry) (hall : ∀ e ∈ files, keepEntry np a c e = false) :
    filter_children np a c files = [] :=
  filter_foldl_of_all_false (keepEntry np a c) files [] hall

theorem keepEntry_false_of_present (np a : String)
    (c : List (String × ChildKind)) (e : Entry)
    (h : hasKey c (basename e.filename) = true) :
    keepEntry np a c e = false := by
  simp [keepEntry, h]

/-- After `find_children`, every entry whose internal parent directory matches
the node has its basename among the children. -/
theorem find_children_covers (np a : String) (files : List Entry)
    (c : List (String × ChildKind)) (e : Entry) (he : e ∈ files)
    (hmatch : normpath np = normpath (dirname (pjoin a e.filename))) :
    hasKey (find_children np a (some files) c) (basename e.filename) = true := by
  rw [hasKey_find_children]
  by_cases hc : hasKey c (basename e.filename) = true
  · exact Or.inl hc
  · refine Or.inr ((hasKey_filter_children np a c files _).mpr ⟨e, he, ?_, rfl⟩)
    simp [keepEntry, hmatch, hc]

/-- C2 (counterexample): with the archive's entry list containing exactly the
two file entries `a/b.txt` and `a/c/d.txt` (and no directory entry `a/c`),
the node anchored at `/root` and located at `/root/a` ends up with exactly
`b.txt` after `find_children` — `c` is not among its children, contrary to
the claim's concrete expectation. -/
theorem c2_counterexample_missing_dir_entry :
    find_children "/root/a" "/root"
        (some [⟨"a/b.txt", some 0⟩, ⟨"a/c/d.txt", some 1⟩]) [] =
      [("b.txt", ChildKind.fileChild)] ∧
    hasKey (find_children "/root/a" "/root"
        (some [⟨"a/b.txt", some 0⟩, ⟨"a/c/d.txt", some 1⟩]) []) "c" = false := by
  decide

/-- C2 (amended): after `find_children`, a name is a child iff it was already
one or some archive entry has that basename and its internal parent directory
(anchor joined with the entry path, dirname, normalised) equals the node's
normalised path; and in the concrete scenario — provided the entry list also
carries the directory entry `a/c`, as a 7z header listing that folder does —
the node at `/root/a` anchored at `/root` gets exactly `b.txt` (a file child)
and `c` (a directory child), and not `d.txt`. -/
theorem c2_find_children_membership :
    (∀ (np a : String) (files : List Entry) (c : List (String × ChildKind))
        (k : String),
      hasKey (find_children np a (some files) c) k = true ↔
        hasKey c k = true ∨
          ∃ e ∈ files, basename e.filename = k ∧
            normpath np = normpath (dirname (pjoin a e.filename))) ∧
    find_children "/root/a" "/root"
        (some [⟨"a/b.txt", some 0⟩, ⟨"a/c", none⟩, ⟨"a/c/d.txt", some 1⟩]) [] =
      [("b.txt", ChildKind.fileChild), ("c", ChildKind.dirChild)] := by
  constructor
  · intro np a files c k
    rw [hasKey_find_children, hasKey_filter_children]
    constructor
    · rintro (h | ⟨e, he, hke, hbe⟩)
      · exact Or.inl h
      · simp only [keepEntry, decide_eq_true_eq] at hke
        exact Or.inr ⟨e, he, hbe, hke.1⟩
    · rintro (h | ⟨e, he, hbe, hP⟩)
      · exact Or.inl h
      · by_cases hck : hasKey c k = true
        · exact Or.inl hck
        · refine Or.inr ⟨e, he, ?_, hbe⟩
          simp only [keepEntry, decide_eq_true_eq]
          exact ⟨hP, by rw [hbe]; exact hck⟩
  · decide

/-- C6: running `find_children` a second time on the same node leaves the
children dict exactly as the first run left it — every matching entry's
basename is already a child, so the second filter keeps nothing. -/
theorem c6_find_children_idempotent (np a : String)
    (files? : Option (List Entry)) (c : List (String × ChildKind)) :
    find_children np a files? (find_children np a files? c) =
      find_children np a files? c := by
  cases files? with
  | none => rfl
  | some files =>
    set c' := find_children np a (some files) c with hc'
    have hall : ∀ e ∈ files, keepEntry np a c' e = false := by
      intro e he
      simp only [keepEntry, decide_eq_false_iff_not, not_and, not_not]
      intro hmatch
      exact find_children_covers np a files c e he hmatch
    show find_children np a (some files) c' = c'
    rw [show find_children np a (some files) c' =
          (filter_children np a c' files).foldl
            (fun cc ne => dictInsert cc ne.1 (childKindOf ne.2)) c' from rfl,
      filter_children_eq_nil np a c' files hall]
    rfl

/-! ## C1: anchor resolution -/

/-- On any constructor-produced chain, `get_anchor` returns the path of the
nearest node (including the node itself) whose `is_anchor` flag is set. -/
theorem get_anchor_constructed (x : ArchivePath) (hx : ArchivePath.Constructed x) :
    x.get_anchor = x.nearestAnchorNode.map ArchivePath.path := by
  induction hx with
  | base p ia =>
    cases ia <;>
      simp [ArchivePath.mkRoot, ArchivePath.get_anchor,
        ArchivePath.nearestAnchorNode, ArchivePath.path]
  | step p ia par hpar ih =>
    cases ia with
    | true =>
      simp [ArchivePath.mkNode, ArchivePath.get_anchor,
        ArchivePath.nearestAnchorNode, ArchivePath.path]
    | false =>
      have hbody : ArchivePath.mkNode p false par =
          ArchivePath.node p false par.get_anchor par := by
        simp [ArchivePath.mkNode, ArchivePath.get_anchor]
      rw [hbody]
      cases hA : par.get_anchor with
      | none =>
        rw [hA] at ih
        simp [ArchivePath.get_anchor, ArchivePath.nearestAnchorNode, ← ih, hA]
      | some xan =>
        rw [hA] at ih
        simp [ArchivePath.get_anchor, ArchivePath.nearestAnchorNode, ← ih, hA]

/-- C1: a constructed anchor node's `get_anchor` is its own (cached) path,
and a constructed non-anchor node with an anchor ancestor resolves to the
path of its nearest anchor ancestor. -/
theorem c1_get_anchor_correct :
    (∀ B : ArchivePath, ArchivePath.Constructed B → B.get_is_anchor = true →
      B.get_anchor = some B.path) ∧
    (∀ C A : ArchivePath, ArchivePath.Constructed C → C.get_is_anchor = false →
      C.nearestAnchorAncestor = some A → C.get_anchor = some A.path) := by
  constructor
  · intro B hB hanchor
    rw [get_anchor_constructed B hB]
    cases B with
    | root p ia a =>
      cases ia with
      | false => cases hanchor
      | true => simp [ArchivePath.nearestAnchorNode, ArchivePath.path]
    | node p ia a par =>
      cases ia with
      | false => cases hanchor
      | true => simp [ArchivePath.nearestAnchorNode, ArchivePath.path]
  · intro C A hC hnot hnear
    rw [get_anchor_constructed C hC]
    cases C with
    | root p ia a =>
      cases ia with
      | false => cases hnear
      | true => cases hnot
    | node p ia a par =>
      cases ia with
      | true => cases hnot
      | false =>
        simp only [ArchivePath.nearestAnchorAncestor] at hnear
        simp [ArchivePath.nearestAnchorNode, hnear]

/-- C1 witness: a concrete two-node chain (an anchor at `/r/a.7z` and a
non-anchor child at `/r/a.7z/sub`) resolves both `get_anchor` calls to the
anchor's path. -/
theorem c1_get_anchor_witness :
    (ArchivePath.mkRoot "/r/a.7z" true).get_anchor = some "/r/a.7z" ∧
    (ArchivePath.mkNode "/r/a.7z/sub" false
        (ArchivePath.mkRoot "/r/a.7z" true)).get_anchor = some "/r/a.7z" := by
  constructor
  · exact c1_get_anchor_correct.1 _ (ArchivePath.Constructed.base _ _) rfl
  · exact c1_get_anchor_correct.2 _
      (ArchivePath.root "/r/a.7z" true (some "/r/a.7z"))
      (ArchivePath.Constructed.step _ _ _ (ArchivePath.Constructed.base _ _))
      rfl (by decide)

/-! ## C3: password retry bound -/

theorem passwordLoop_zero (oa : Option String → OpenRes) (pw : Nat → String)
    (done : Nat) (errs : List String) :
    passwordLoop oa pw done 0 errs = some ⟨none, done, errs⟩ := rfl

theorem passwordLoop_succ (oa : Option String → OpenRes) (pw : Nat → String)
    (done rem : Nat) (errs : List String) :
    passwordLoop oa pw done (rem + 1) errs =
      (match oa (some (pw done)) with
        | OpenRes.ok h => some ⟨some h, done + 1, errs⟩
        | OpenRes.lzmaError =>
          passwordLoop oa pw (done + 1) rem (errs ++ ["Incorrect password."])
        | OpenRes.archiveError m =>
          some ⟨none, done + 1, errs ++ ["Decompression error: " ++ m]⟩
        | OpenRes.passwordRequired => none) := rfl

theorem passwordLoop_prompts_le (oa : Option String → OpenRes)
    (pw : Nat → String) :
    ∀ (rem done : Nat) (errs : List String) (r : ArcOutcome),
      passwordLoop oa pw done rem errs = some r → r.prompts ≤ done + rem
  | 0, done, errs, r, h => by
    rw [passwordLoop_zero] at h
    cases h
    simp
  | rem + 1, done, errs, r, h => by
    rw [passwordLoop_succ] at h
    cases hoa : oa (some (pw done)) <;> rw [hoa] at h
    case ok hd =>
      cases h
      simp only
      omega
    case passwordRequired => cases h
    case lzmaError =>
      have := passwordLoop_prompts_le oa pw rem (done + 1)
        (errs ++ ["Incorrect password."]) r h
      omega
    case archiveError m =>
      cases h
      simp only
      omega

/-- C3: during container-handle opening the password prompt runs at most 3
times; two wrong passwords followed by the correct one yield the open handle
on the third prompt with two incorrect-password reports; three wrong
passwords yield no handle (the resolution failure the caller sees) after
exactly 3 prompts and 3 incorrect-password reports. -/
theorem c3_password_retry :
    (∀ (oa : Option String → OpenRes) (pw : Nat → String) (r : ArcOutcome),
      get_archive_file oa pw = some r → r.prompts ≤ 3) ∧
    (∀ (oa : Option String → OpenRes) (pw : Nat → String) (hd : Nat),
      oa none = OpenRes.passwordRequired →
      oa (some (pw 0)) = OpenRes.lzmaError →
      oa (some (pw 1)) = OpenRes.lzmaError →
      oa (some (pw 2)) = OpenRes.ok hd →
      get_archive_file oa pw =
        some ⟨some hd, 3, ["Incorrect password.", "Incorrect password."]⟩) ∧
    (∀ (oa : Option String → OpenRes) (pw : Nat → String),
      oa none = OpenRes.passwordRequired →
      oa (some (pw 0)) = OpenRes.lzmaError →
      oa (some (pw 1)) = OpenRes.lzmaError →
      oa (some (pw 2)) = OpenRes.lzmaError →
      get_archive_file oa pw =
        some ⟨none, 3, ["Incorrect password.", "Incorrect password.",
          "Incorrect password."]⟩) := by
  refine ⟨?_, ?_, ?_⟩
  · intro oa pw r h
    unfold get_archive_file at h
    cases hoa : oa none <;> rw [hoa] at h
    case ok hd => cases h; simp
    case passwordRequired =>
      simpa using passwordLoop_prompts_le oa pw 3 0 [] r h
    case lzmaError => cases h
    case archiveError m => cases h; simp
  · intro oa pw hd h0 h1 h2 hok
    unfold get_archive_file
    rw [h0, passwordLoop_succ, h1, passwordLoop_succ, h2, passwordLoop_succ,
      hok]
    rfl
  · intro oa pw h0 h1 h2 h3
    unfold get_archive_file
    rw [h0, passwordLoop_succ, h1, passwordLoop_succ, h2, passwordLoop_succ,
      h3, passwordLoop_zero]
    rfl

/-- C3 witness: a concrete collaborator whose correct password is `pw` run
against an attempt sequence wrong-wrong-right, and one against all-wrong
attempts. -/
theorem c3_password_retry_witness :
    get_archive_file
        (fun p => match p with
          | none => OpenRes.passwordRequired
          | some s => if s = "pw" then OpenRes.ok 7 else OpenRes.lzmaError)
        (fun i => if i = 2 then "pw" else "bad") =
      some ⟨some 7, 3, ["Incorrect password.", "Incorrect password."]⟩ ∧
    get_archive_file
        (fun p => match p with
          | none => OpenRes.passwordRequired
          | some _ => OpenRes.lzmaError)
        (fun _ => "bad") =
      some ⟨none, 3, ["Incorrect password.", "Incorrect password.",
        "Incorrect password."]⟩ :=
  ⟨c3_password_retry.2.1 _ _ 7 rfl (by decide) (by decide) (by decide),
   c3_password_retry.2.2 _ _ rfl rfl rfl rfl⟩

/-! ## C4: `absorb` through `D['.'] = x` -/

/-- C4: evaluating `D['.'] = x` at a concrete heap shows the absorb bug:
`name`, `parent`, `path_type` and `children` are copied from `x`, but
`backend` receives `x.get_path()` (here `/data/arch.7z`), not
`x.get_backend()` (here `py7zr`), because `Path.absorb` assigns
`self.backend = other.get_path()`. -/
theorem c4_absorb_backend_bug :
    dirSetItem "/cwd"
        [(1, ⟨"arch.7z", some 0, "py7zr", "7z", some "/data/arch.7z", [], true⟩)]
        3 ⟨"d", none, "fs", "dir", some "/data/d", [("k", 9)], true⟩ "." 1 =
      some ⟨"arch.7z", some 0, "/data/arch.7z", "7z", some "/data/d", [], true⟩ ∧
    ("/data/arch.7z" : String) ≠ "py7zr" := by
  exact ⟨by decide, by decide⟩

/-! ## C5: `get_path` on a parentless non-filesystem node -/

/-- C5 (counterexample): it is not the case that every node with no cached
path, no parent, no children and a non-`fs` backend gets a warning out of
`get_path`: a `DirPath` in that state takes the start-node branch and
silently returns `abspath(name)`. -/
theorem c5_counterexample_dirpath_silent :
    ¬ (∀ (cwd : String) (h : Heap) (fuel : Nat) (o : PathObj)
        (r : String × Bool),
        o.path = none → o.parent = none → o.children = [] →
        o.backend ≠ "fs" → get_path cwd h (fuel + 1) o = some r →
        r.2 = true) := by
  intro hall
  have := hall "/cwd" [] 2 ⟨"x", none, "py7zr", "dir", none, [], true⟩
    ("/cwd/x", false) rfl rfl rfl (by decide) (by decide)
  exact absurd this (by decide)

/-- C5 (amended): a non-directory node with no cached path, no parent and a
non-`fs` backend makes `Path.get_path` issue the
`UnexpectedSituationWarning` and return the bare name; a `DirPath` in the
same state with no children instead takes `DirPath.get_path`'s start-node
branch, silently returning `abspath(name)` with no report. -/
theorem c5_get_path_orphan_report (cwd : String) (h : Heap) (fuel : Nat)
    (o : PathObj) (hpath : o.path = none) (hpar : o.parent = none)
    (hbk : o.backend ≠ "fs") :
    (o.isDir = false → get_path cwd h (fuel + 1) o = some (o.name, true)) ∧
    (o.isDir = true → o.children = [] →
      get_path cwd h (fuel + 1) o = some (abspath cwd o.name, false)) := by
  constructor
  · intro hd
    unfold get_path
    simp [hd, hpath, hpar, hbk]
  · intro hd hch
    unfold get_path
    simp [hd, hpath, hpar, hch]

/-- C5 witness: the two cases of the amended statement at concrete nodes. -/
theorem c5_get_path_orphan_witness :
    get_path "/cwd" [] 3 ⟨"x", none, "py7zr", "text", none, [], false⟩ =
      some ("x", true) ∧
    get_path "/cwd" [] 3 ⟨"x", none, "py7zr", "dir", none, [], true⟩ =
      some ("/cwd/x", false) :=
  ⟨(c5_get_path_orphan_report "/cwd" [] 2 _ rfl rfl (by decide)).1 rfl,
   (c5_get_path_orphan_report "/cwd" [] 2 _ rfl rfl (by decide)).2 rfl rfl⟩

/-! ## C7: temp-file / byte-stream round trip -/

/-- C7: for any node state, reading an entry through `v_open` with
`temp=True` and reading it with `temp=False, text=False` deliver the same
bytes — both from the same starting cache, and when the stream read follows
the temp read on its updated cache. -/
theorem c7_v_open_roundtrip (readEntry : String → List Nat)
    (cwd np a : String) (cd : List (String × List Nat)) (path : String) :
    (v_open readEntry cwd np a cd path true false).1.content =
      (v_open readEntry cwd np a cd path false false).1.content ∧
    (v_open readEntry cwd np a
        (v_open readEntry cwd np a cd path true false).2
        path false false).1.content =
      (v_open readEntry cwd np a cd path true false).1.content := by
  constructor
  · rfl
  · simp only [v_open]
    by_cases h : hasKey cd path = true
    · simp [h, VOut.content]
    · simp [h, hasKey_dictInsert, VOut.content]

/-! ## C8: reserved keys of `__getitem__` -/

/-- C8: on any directory object, `D['.']` returns `D` itself and `D['..']`
returns `D`'s parent reference, whatever the children dict holds. -/
theorem c8_dirGetItem_reserved (o : PathObj) (selfId : Nat) :
    dirGetItem o selfId "." = some (some selfId) ∧
    dirGetItem o selfId ".." = some o.parent := by
  constructor
  · rfl
  · unfold dirGetItem
    rw [if_neg (by decide : ¬ (".." : String) = "."), if_pos rfl]

/-! ## C9: no reserved key is ever stored in `children` -/

theorem cleanChildren_dictInsert (c : List (String × Nat)) (k : String)
    (v : Nat) (hc : cleanChildren c = true) (h1 : k ≠ ".") (h2 : k ≠ "..") :
    cleanChildren (dictInsert c k v) = true := by
  unfold dictInsert
  by_cases h : hasKey c k = true
  · rw [if_pos h]
    simp only [cleanChildren, List.all_eq_true, decide_eq_true_eq] at hc ⊢
    intro p hp
    obtain ⟨q, hq, hfq⟩ := List.mem_map.mp hp
    by_cases hqk : q.1 = k
    · rw [if_pos hqk] at hfq
      rw [← hfq]
      exact ⟨h1, h2⟩
    · rw [if_neg hqk] at hfq
      rw [← hfq]
      exact hc q hq
  · rw [if_neg h]
    simp only [cleanChildren, List.all_append, List.all_cons, List.all_nil,
      Bool.and_eq_true, List.all_eq_true, decide_eq_true_eq] at hc ⊢
    exact ⟨hc, ⟨h1, h2⟩, trivial⟩

theorem heapGet_clean (h : Heap) (i : Nat) (o : PathObj)
    (hh : cleanHeap h = true) (hg : heapGet h i = some o) :
    cleanChildren o.children = true := by
  unfold heapGet at hg
  cases hf : List.find? (fun p => p.1 = i) h with
  | none => rw [hf] at hg; cases hg
  | some pr =>
    rw [hf] at hg
    cases hg
    simp only [cleanHeap, List.all_eq_true, decide_eq_true_eq] at hh
    exact hh pr (List.mem_of_find?_eq_some hf)

theorem dirSetItem_clean (cwd : String) (h : Heap) (fuel : Nat) (o : PathObj)
    (k : String) (v : Nat) (o' : PathObj) (hh : cleanHeap h = true)
    (ho : cleanChildren o.children = true)
    (hset : dirSetItem cwd h fuel o k v = some o') :
    cleanChildren o'.children = true := by
  unfold dirSetItem at hset
  by_cases hk1 : k = "."
  · rw [if_pos hk1] at hset
    cases hg : heapGet h v with
    | none => rw [hg] at hset; cases hset
    | some other =>
      rw [hg] at hset
      unfold absorb at hset
      dsimp only at hset
      cases hp : get_path cwd h fuel other with
      | none => rw [hp] at hset; cases hset
      | some pr =>
        rw [hp] at hset
        cases hset
        by_cases hd : o.isDir = true <;> simp only [hd, if_true, if_false]
        · simpa [hd] using heapGet_clean h v other hh hg
        · simpa [hd] using ho
  · rw [if_neg hk1] at hset
    by_cases hk2 : k = ".."
    · rw [if_pos hk2] at hset
      cases hset
      simpa [set_parent] using ho
    · rw [if_neg hk2] at hset
      cases hset
      simpa using cleanChildren_dictInsert o.children k v ho hk1 hk2

theorem applySets_bind_none (cwd : String) (h : Heap) (fuel : Nat) :
    ∀ ops : List (String × Nat),
      ops.foldl (fun od op => od.bind
        (fun o => dirSetItem cwd h fuel o op.1 op.2)) none = none
  | [] => rfl
  | _ :: ops => applySets_bind_none cwd h fuel ops

theorem applySets_clean (cwd : String) (h : Heap) (fuel : Nat)
    (hh : cleanHeap h = true) :
    ∀ (ops : List (String × Nat)) (d : PathObj),
      cleanChildren d.children = true → ∀ d' : PathObj,
        applySets cwd h fuel d ops = some d' →
          cleanChildren d'.children = true
  | [], d, hd, d', happ => by
    cases happ
    exact hd
  | (k, v) :: ops, d, hd, d', happ => by
    have happ' : ops.foldl (fun od op => od.bind
        (fun o => dirSetItem cwd h fuel o op.1 op.2))
        (dirSetItem cwd h fuel d k v) = some d' := happ
    cases hset : dirSetItem cwd h fuel d k v with
    | none =>
      rw [hset] at happ'
      exact absurd (applySets_bind_none cwd h fuel ops ▸ happ')
        (by simp [applySets_bind_none cwd h fuel ops])
    | some dmid =>
      rw [hset] at happ'
      exact applySets_clean cwd h fuel hh ops dmid
        (dirSetItem_clean cwd h fuel d k v dmid hh hd hset) d' happ'

/-- C9: starting from a directory whose children hold no reserved key, in a
heap of objects whose children hold no reserved key, any sequence of
`__setitem__` operations leaves the children free of `.` and `..`, so
iteration and containment over the directory never produce them. -/
theorem c9_no_reserved_child_keys (cwd : String) (h : Heap) (fuel : Nat)
    (d : PathObj) (ops : List (String × Nat)) (d' : PathObj)
    (hh : cleanHeap h = true) (hd : cleanChildren d.children = true)
    (happ : applySets cwd h fuel d ops = some d') :
    cleanChildren d'.children = true ∧
    "." ∉ dirIter d' ∧ ".." ∉ dirIter d' ∧
    dirContains d' "." = false ∧ dirContains d' ".." = false := by
  have hc := applySets_clean cwd h fuel hh ops d hd d' happ
  simp only [cleanChildren, List.all_eq_true, decide_eq_true_eq] at hc
  refine ⟨?_, ?_, ?_, ?_, ?_⟩
  · simp only [cleanChildren, List.all_eq_true, decide_eq_true_eq]
    exact hc
  · intro hmem
    obtain ⟨p, hp, hpk⟩ := List.mem_map.mp hmem
    exact (hc p hp).1 hpk
  · intro hmem
    obtain ⟨p, hp, hpk⟩ := List.mem_map.mp hmem
    exact (hc p hp).2 hpk
  · simp only [dirContains, hasKey, List.any_eq_false, decide_eq_true_eq]
    exact fun p hp => (hc p hp).1
  · simp only [dirContains, hasKey, List.any_eq_false, decide_eq_true_eq]
    exact fun p hp => (hc p hp).2

/-- C9 witness: a concrete op sequence (two child inserts and a reparent) on
an initially clean directory; afterwards neither reserved key is contained. -/
theorem c9_no_reserved_child_keys_witness :
    dirContains ⟨"d", some 2, "fs", "dir", some "/d",
        [("a", 5), ("b", 7)], true⟩ "." = false ∧
    dirContains ⟨"d", some 2, "fs", "dir", some "/d",
        [("a", 5), ("b", 7)], true⟩ ".." = false :=
  ⟨(c9_no_reserved_child_keys "/cwd" [] 1
      ⟨"d", none, "fs", "dir", some "/d", [], true⟩
      [("a", 5), ("..", 2), ("b", 7)] _ (by decide) (by decide)
      (by decide)).2.2.2.1,
   (c9_no_reserved_child_keys "/cwd" [] 1
      ⟨"d", none, "fs", "dir", some "/d", [], true⟩
      [("a", 5), ("..", 2), ("b", 7)] _ (by decide) (by decide)
      (by decide)).2.2.2.2⟩

/-! ## C10: `get_path` is cached at construction and stable -/

theorem get_path_cached (cwd : String) (h : Heap) (fuel : Nat) (o : PathObj)
    (p : String) (hp : o.path = some p) :
    get_path cwd h (fuel + 1) o = some (p, false) := by
  unfold get_path
  rw [hp]
  by_cases hd : o.isDir = true <;> simp [hd]

/-- C10: a constructed node carries a cached path, and `get_path` after a
later `set_name` or `set_parent` returns exactly what it returned before. -/
theorem c10_get_path_cached_stable (cwd name backend ptype : String)
    (h : Heap) (fuel : Nat) (parent : Option Nat) (isDir : Bool)
    (children : List (String × Nat)) (o : PathObj)
    (hmk : mkPathObj cwd h fuel name parent backend ptype isDir children =
      some o) :
    (∃ p, o.path = some p) ∧
    (∀ (cwd' : String) (h' : Heap) (fuel' : Nat) (n : String) (pid : Nat),
      get_path cwd' h' (fuel' + 1) (set_name o n) =
        get_path cwd' h' (fuel' + 1) o ∧
      get_path cwd' h' (fuel' + 1) (set_parent o pid) =
        get_path cwd' h' (fuel' + 1) o) := by
  have hpath : ∃ p, o.path = some p := by
    simp only [mkPathObj] at hmk
    split at hmk
    · cases hmk
    · split at hmk <;> cases hmk <;> exact ⟨_, rfl⟩
  obtain ⟨p, hp⟩ := hpath
  refine ⟨⟨p, hp⟩, fun cwd' h' fuel' n pid => ⟨?_, ?_⟩⟩
  · rw [get_path_cached cwd' h' fuel' _ p (by simpa [set_name] using hp),
      get_path_cached cwd' h' fuel' o p hp]
  · rw [get_path_cached cwd' h' fuel' _ p (by simpa [set_parent] using hp),
      get_path_cached cwd' h' fuel' o p hp]

/-- C10 witness: a concrete construction from the absolute name
`/data/file.txt`; renaming afterwards leaves `get_path` unchanged. -/
theorem c10_get_path_cached_witness :
    get_path "/c" [] 1
        (set_name ⟨"file.txt", none, "fs", "text", some "/data/file.txt",
          [], false⟩ "z") =
      get_path "/c" [] 1
        ⟨"file.txt", none, "fs", "text", some "/data/file.txt", [], false⟩ :=
  ((c10_get_path_cached_stable "/cwd" "/data/file.txt" "fs" "text" [] 5 none
      false [] _ (by decide)).2 "/c" [] 0 "z" 0).1

end NBrowser
